import Mathlib

/-!
Verification of the golden-ratio spiral generator (eduair94/spiral).

The repository bundles several historical revisions of the same small math
module.  `src/components/template.ts` contains, besides the UI templates,
two revisions of the math module `lib/math.ts`:

* a quarter-turn revision (radius multiplies by the golden ratio every 90°,
  growth constant `GOLDEN_B = ln(PHI) / (π/2)` from `lib/constants.ts`),
  embedded below in namespace `Spiral.QuarterTurn`;
* a full-turn revision (radius multiplies by the golden ratio every 360°;
  its module header documents `b = ln(PHI) / (2π)`), embedded below in
  namespace `Spiral.FullTurn`.

Floating point numbers are modelled by real numbers; the purely rational
computations (guide radii, Fibonacci squares, state manager) are modelled
over `ℚ` so they can be evaluated by `decide`.
-/

namespace Spiral

/-- Golden-ratio constant `PHI` from `src/lib/constants.ts` line 21 —
the exact decimal literal appearing in the code. -/
noncomputable def PHI : ℝ := 1.6180339887498948

/-- Growth constant `GOLDEN_B = Math.log(PHI) / (Math.PI / 2)` from
`src/lib/constants.ts` line 37 (quarter-turn convention: the radius
multiplies by PHI every 90°). -/
noncomputable def GOLDEN_B : ℝ := Real.log PHI / (Real.pi / 2)

/-- Growth constant of the full-turn revision of the math module.
That revision (`template.ts` lines 688–709) imports `GOLDEN_B` from a
sibling `constants.ts` revision that is not among the source files; the
module header documents it as `b = ln(PHI)/(2π)` ("the radius multiplies
by PHI every full turn (360°)"), so the constant is taken from that
documentation. -/
noncomputable def GOLDEN_B_FULL : ℝ := Real.log PHI / (2 * Real.pi)

/-- Default sampling density `DEFAULT_POINTS_PER_TURN = 720` from
`src/lib/constants.ts` line 43. -/
def DEFAULT_POINTS_PER_TURN : ℕ := 720

/-- Margin constant `MARGIN_PERCENT = 0.05` (both math-module revisions). -/
noncomputable def MARGIN_PERCENT : ℝ := 0.05

/-- JavaScript `Math.round`: round half toward positive infinity,
equal to `⌊x + 1/2⌋`. -/
noncomputable def jsRound (x : ℝ) : ℤ := ⌊x + 1 / 2⌋

/-- Result record of `calculateSpiralFromPaper` in the full-turn revision
(`template.ts` lines 831–850). -/
structure PaperFit where
  initialRadius : ℝ
  finalRadius : ℝ
  maxTheta : ℝ

/-- Result record of `calculateSpiralFromPaper` in the quarter-turn revision
(`template.ts` lines 556–584), which additionally returns the quarter-turn
count. -/
structure PaperFitQ where
  initialRadius : ℝ
  finalRadius : ℝ
  maxTheta : ℝ
  quarterTurns : ℤ

namespace QuarterTurn

/-- Function `goldenSpiralRadius` of the quarter-turn revision
(`template.ts` lines 431–433): `initialRadius * Math.exp(GOLDEN_B * theta)`. -/
noncomputable def goldenSpiralRadius (theta initialRadius : ℝ) : ℝ :=
  initialRadius * Real.exp (GOLDEN_B * theta)

/-- Function `calculateArcLength` of the quarter-turn revision
(`template.ts` lines 451–455). -/
noncomputable def calculateArcLength (initialRadius maxTheta : ℝ) : ℝ :=
  let sqrtFactor := Real.sqrt (1 + GOLDEN_B * GOLDEN_B)
  let expFactor := Real.exp (GOLDEN_B * maxTheta) - 1
  initialRadius / GOLDEN_B * sqrtFactor * expFactor

/-- Function `calculateSpiralFromPaper` of the quarter-turn revision
(`template.ts` lines 556–584): rounds the requested turns to a whole
number of quarter turns and divides the final radius by `PHI` to the
power of that count (`Math.pow(PHI, quarterTurns)`). -/
noncomputable def calculateSpiralFromPaper (paperWidth paperHeight turns : ℝ) : PaperFitQ :=
  let minDimension := min paperWidth paperHeight
  let finalRadius := minDimension / 2 * (1 - 2 * MARGIN_PERCENT)
  let quarterTurns := jsRound (turns * 4)
  let initialRadius := finalRadius / PHI ^ quarterTurns
  let maxTheta := (quarterTurns : ℝ) * (Real.pi / 2)
  ⟨initialRadius, finalRadius, maxTheta, quarterTurns⟩

end QuarterTurn

namespace FullTurn

/-- Function `goldenSpiralRadius` of the full-turn revision
(`template.ts` lines 707–709). -/
noncomputable def goldenSpiralRadius (theta initialRadius : ℝ) : ℝ :=
  initialRadius * Real.exp (GOLDEN_B_FULL * theta)

/-- Function `calculateArcLength` of the full-turn revision
(`template.ts` lines 727–731). -/
noncomputable def calculateArcLength (initialRadius maxTheta : ℝ) : ℝ :=
  let sqrtFactor := Real.sqrt (1 + GOLDEN_B_FULL * GOLDEN_B_FULL)
  let expFactor := Real.exp (GOLDEN_B_FULL * maxTheta) - 1
  initialRadius / GOLDEN_B_FULL * sqrtFactor * expFactor

/-- Function `calculateSpiralFromPaper` of the full-turn revision
(`template.ts` lines 831–850). -/
noncomputable def calculateSpiralFromPaper (paperWidth paperHeight turns : ℝ) : PaperFit :=
  let minDimension := min paperWidth paperHeight
  let finalRadius := minDimension / 2 * (1 - 2 * MARGIN_PERCENT)
  let maxTheta := turns * 2 * Real.pi
  let initialRadius := finalRadius / Real.exp (GOLDEN_B_FULL * maxTheta)
  ⟨initialRadius, finalRadius, maxTheta⟩

/-- Function `generateSpiralPoints` of the full-turn revision
(`template.ts` lines 743–763): `totalPoints = Math.ceil(maxTheta / (2π) *
pointsPerTurn)`, then one point for each `i` with `0 ≤ i ≤ totalPoints`
(so the JavaScript loop body runs `totalPoints + 1` times when
`totalPoints ≥ 0` and never when `totalPoints < 0`), with
`theta = (i / totalPoints) * maxTheta`, `x = r * cos(-theta)`,
`y = r * sin(-theta)`. -/
noncomputable def generateSpiralPoints (initialRadius maxTheta pointsPerTurn : ℝ) :
    List (ℝ × ℝ) :=
  let totalPoints : ℤ := ⌈maxTheta / (2 * Real.pi) * pointsPerTurn⌉
  (List.range (totalPoints + 1).toNat).map fun (i : ℕ) =>
    let theta := (i : ℝ) / (totalPoints : ℝ) * maxTheta
    let r := goldenSpiralRadius theta initialRadius
    (r * Real.cos (-theta), r * Real.sin (-theta))

end FullTurn

/-! ### Basic facts about the constants -/

lemma PHI_pos : 0 < PHI := by norm_num [PHI]

lemma one_lt_PHI : 1 < PHI := by norm_num [PHI]

lemma GOLDEN_B_pos : 0 < GOLDEN_B := by
  have h1 : 0 < Real.log PHI := Real.log_pos one_lt_PHI
  have h2 : 0 < Real.pi / 2 := by positivity
  exact div_pos h1 h2

lemma GOLDEN_B_FULL_pos : 0 < GOLDEN_B_FULL := by
  have h1 : 0 < Real.log PHI := Real.log_pos one_lt_PHI
  have h2 : 0 < 2 * Real.pi := by positivity
  exact div_pos h1 h2

lemma exp_int_mul_log_PHI (q : ℤ) : Real.exp ((q : ℝ) * Real.log PHI) = PHI ^ q := by
  rw [mul_comm, ← Real.rpow_def_of_pos PHI_pos, Real.rpow_intCast]

lemma exp_GOLDEN_B_quarter (q : ℤ) :
    Real.exp (GOLDEN_B * ((q : ℝ) * (Real.pi / 2))) = PHI ^ q := by
  have hpi : Real.pi / 2 ≠ 0 := by positivity
  have : GOLDEN_B * ((q : ℝ) * (Real.pi / 2)) = (q : ℝ) * Real.log PHI := by
    field_simp [GOLDEN_B]
    ring
  rw [this, exp_int_mul_log_PHI]

/-- C1: for every positive paperWidth, paperHeight and turns, the geometry
returned by `calculateSpiralFromPaper` satisfies
`finalRadius = initialRadius * e^(b * maxTheta)` exactly, where `b` is the
module's growth constant, in both the full-turn and quarter-turn revisions. -/
theorem spiralFromPaper_growth_invariant (w h t : ℝ)
    (hw : 0 < w) (hh : 0 < h) (ht : 0 < t) :
    (FullTurn.calculateSpiralFromPaper w h t).finalRadius =
      (FullTurn.calculateSpiralFromPaper w h t).initialRadius *
        Real.exp (GOLDEN_B_FULL * (FullTurn.calculateSpiralFromPaper w h t).maxTheta) ∧
    (QuarterTurn.calculateSpiralFromPaper w h t).finalRadius =
      (QuarterTurn.calculateSpiralFromPaper w h t).initialRadius *
        Real.exp (GOLDEN_B * (QuarterTurn.calculateSpiralFromPaper w h t).maxTheta) := by
  constructor
  · show min w h / 2 * (1 - 2 * MARGIN_PERCENT) =
      min w h / 2 * (1 - 2 * MARGIN_PERCENT) / Real.exp (GOLDEN_B_FULL * (t * 2 * Real.pi)) *
        Real.exp (GOLDEN_B_FULL * (t * 2 * Real.pi))
    rw [div_mul_cancel₀]
    exact Real.exp_ne_zero _
  · show min w h / 2 * (1 - 2 * MARGIN_PERCENT) =
      min w h / 2 * (1 - 2 * MARGIN_PERCENT) / PHI ^ jsRound (t * 4) *
        Real.exp (GOLDEN_B * ((jsRound (t * 4) : ℝ) * (Real.pi / 2)))
    rw [exp_GOLDEN_B_quarter, div_mul_cancel₀]
    exact zpow_ne_zero _ (ne_of_gt PHI_pos)

/-- Witness for C1 at paper 1000 × 1000 mm and 7 turns. -/
theorem spiralFromPaper_growth_invariant_witness :
    (FullTurn.calculateSpiralFromPaper 1000 1000 7).finalRadius =
      (FullTurn.calculateSpiralFromPaper 1000 1000 7).initialRadius *
        Real.exp (GOLDEN_B_FULL * (FullTurn.calculateSpiralFromPaper 1000 1000 7).maxTheta) ∧
    (QuarterTurn.calculateSpiralFromPaper 1000 1000 7).finalRadius =
      (QuarterTurn.calculateSpiralFromPaper 1000 1000 7).initialRadius *
        Real.exp (GOLDEN_B * (QuarterTurn.calculateSpiralFromPaper 1000 1000 7).maxTheta) :=
  spiralFromPaper_growth_invariant 1000 1000 7 (by norm_num) (by norm_num) (by norm_num)

/-- C2: with initialRadius = 15 mm and the full-turn convention
(period 2π), `goldenSpiralRadius` at theta = 2π equals `15 * PHI`
exactly, which is within 0.01 of 24.27 mm. -/
theorem radius_after_one_full_turn :
    FullTurn.goldenSpiralRadius (2 * Real.pi) 15 = 15 * PHI ∧
    |FullTurn.goldenSpiralRadius (2 * Real.pi) 15 - 24.27| < 1 / 100 := by
  have hpi : (2 : ℝ) * Real.pi ≠ 0 := by positivity
  have key : FullTurn.goldenSpiralRadius (2 * Real.pi) 15 = 15 * PHI := by
    unfold FullTurn.goldenSpiralRadius GOLDEN_B_FULL
    rw [div_mul_cancel₀ _ hpi, Real.exp_log PHI_pos]
  refine ⟨key, ?_⟩
  rw [key, abs_lt]
  norm_num [PHI]

/-- C4: for every initialRadius > 0 and maxTheta ≥ 0, `calculateArcLength`
returns exactly `(initialRadius / b) * sqrt (1 + b^2) * (e^(b * maxTheta) - 1)`
with `b` the module growth constant, in both revisions. -/
theorem arcLength_closed_form (r0 maxTheta : ℝ) (hr : 0 < r0) (hθ : 0 ≤ maxTheta) :
    QuarterTurn.calculateArcLength r0 maxTheta =
      r0 / GOLDEN_B * Real.sqrt (1 + GOLDEN_B ^ 2) *
        (Real.exp (GOLDEN_B * maxTheta) - 1) ∧
    FullTurn.calculateArcLength r0 maxTheta =
      r0 / GOLDEN_B_FULL * Real.sqrt (1 + GOLDEN_B_FULL ^ 2) *
        (Real.exp (GOLDEN_B_FULL * maxTheta) - 1) := by
  constructor
  · unfold QuarterTurn.calculateArcLength
    rw [sq]
  · unfold FullTurn.calculateArcLength
    rw [sq]

/-- Witness for C4 at initialRadius = 1, maxTheta = 0. -/
theorem arcLength_closed_form_witness :
    QuarterTurn.calculateArcLength 1 0 =
      1 / GOLDEN_B * Real.sqrt (1 + GOLDEN_B ^ 2) * (Real.exp (GOLDEN_B * 0) - 1) ∧
    FullTurn.calculateArcLength 1 0 =
      1 / GOLDEN_B_FULL * Real.sqrt (1 + GOLDEN_B_FULL ^ 2) *
        (Real.exp (GOLDEN_B_FULL * 0) - 1) :=
  arcLength_closed_form 1 0 (by norm_num) (by norm_num)

/-- C8: for every initialRadius > 0 and angles theta2 > theta1 ≥ 0, the
radius-at-angle function is strictly increasing, in both revisions. -/
theorem goldenSpiralRadius_strict_mono (r0 t1 t2 : ℝ)
    (hr : 0 < r0) (h1 : 0 ≤ t1) (h12 : t1 < t2) :
    QuarterTurn.goldenSpiralRadius t1 r0 < QuarterTurn.goldenSpiralRadius t2 r0 ∧
    FullTurn.goldenSpiralRadius t1 r0 < FullTurn.goldenSpiralRadius t2 r0 := by
  constructor
  · unfold QuarterTurn.goldenSpiralRadius
    have : GOLDEN_B * t1 < GOLDEN_B * t2 :=
      mul_lt_mul_of_pos_left h12 GOLDEN_B_pos
    exact mul_lt_mul_of_pos_left (Real.exp_lt_exp.mpr this) hr
  · unfold FullTurn.goldenSpiralRadius
    have : GOLDEN_B_FULL * t1 < GOLDEN_B_FULL * t2 :=
      mul_lt_mul_of_pos_left h12 GOLDEN_B_FULL_pos
    exact mul_lt_mul_of_pos_left (Real.exp_lt_exp.mpr this) hr

/-- Witness for C8 at initialRadius = 1, theta1 = 0, theta2 = 1. -/
theorem goldenSpiralRadius_strict_mono_witness :
    QuarterTurn.goldenSpiralRadius 0 1 < QuarterTurn.goldenSpiralRadius 1 1 ∧
    FullTurn.goldenSpiralRadius 0 1 < FullTurn.goldenSpiralRadius 1 1 :=
  goldenSpiralRadius_strict_mono 1 0 1 (by norm_num) (by norm_num) (by norm_num)

/-- C3 counterexample: the quarter-turn revision of `calculateSpiralFromPaper`
rounds the requested turns to a whole number of quarter turns, so at
turns = 3/5 its `maxTheta` is `round(2.4) * π/2 = π`, not
`turns * 2π = 1.2π`. -/
theorem quarter_paper_fit_maxTheta_counterexample :
    (QuarterTurn.calculateSpiralFromPaper 1000 1000 (3 / 5)).maxTheta ≠
      3 / 5 * (2 * Real.pi) := by
  have h2 : jsRound ((3 : ℝ) / 5 * 4) = 2 := by
    unfold jsRound
    norm_num
  show (jsRound ((3 : ℝ) / 5 * 4) : ℝ) * (Real.pi / 2) ≠ 3 / 5 * (2 * Real.pi)
  rw [h2]
  intro heq
  have hpi := Real.pi_pos
  norm_num at heq
  nlinarith

/-- C3 (amended): the full-turn revision of `calculateSpiralFromPaper`
satisfies all three spec formulas exactly; the quarter-turn revision
satisfies the finalRadius formula and the initialRadius inversion, but its
maxTheta is `round(turns * 4) * π/2`, which equals `turns * 2π` exactly
when `turns * 4` is an integer. -/
theorem paper_fit_formulas (w h t : ℝ) (hw : 0 < w) (hh : 0 < h) (ht : 0 < t) :
    (FullTurn.calculateSpiralFromPaper w h t).finalRadius =
      0.5 * min w h * (1 - 2 * 0.05) ∧
    (FullTurn.calculateSpiralFromPaper w h t).maxTheta = t * (2 * Real.pi) ∧
    (FullTurn.calculateSpiralFromPaper w h t).initialRadius =
      (FullTurn.calculateSpiralFromPaper w h t).finalRadius /
        Real.exp (GOLDEN_B_FULL * (FullTurn.calculateSpiralFromPaper w h t).maxTheta) ∧
    (QuarterTurn.calculateSpiralFromPaper w h t).finalRadius =
      0.5 * min w h * (1 - 2 * 0.05) ∧
    (QuarterTurn.calculateSpiralFromPaper w h t).maxTheta =
      (jsRound (t * 4) : ℝ) * (Real.pi / 2) ∧
    (QuarterTurn.calculateSpiralFromPaper w h t).initialRadius =
      (QuarterTurn.calculateSpiralFromPaper w h t).finalRadius /
        Real.exp (GOLDEN_B * (QuarterTurn.calculateSpiralFromPaper w h t).maxTheta) ∧
    (∀ k : ℤ, (k : ℝ) = t * 4 →
      (QuarterTurn.calculateSpiralFromPaper w h t).maxTheta = t * (2 * Real.pi)) := by
  refine ⟨?_, ?_, ?_, ?_, rfl, ?_, ?_⟩
  · show min w h / 2 * (1 - 2 * MARGIN_PERCENT) = 0.5 * min w h * (1 - 2 * 0.05)
    unfold MARGIN_PERCENT
    ring
  · show t * 2 * Real.pi = t * (2 * Real.pi)
    ring
  · rfl
  · show min w h / 2 * (1 - 2 * MARGIN_PERCENT) = 0.5 * min w h * (1 - 2 * 0.05)
    unfold MARGIN_PERCENT
    ring
  · show min w h / 2 * (1 - 2 * MARGIN_PERCENT) / PHI ^ jsRound (t * 4) =
      min w h / 2 * (1 - 2 * MARGIN_PERCENT) /
        Real.exp (GOLDEN_B * ((jsRound (t * 4) : ℝ) * (Real.pi / 2)))
    rw [exp_GOLDEN_B_quarter]
  · intro k hk
    show (jsRound (t * 4) : ℝ) * (Real.pi / 2) = t * (2 * Real.pi)
    have hjk : jsRound (t * 4) = k := by
      unfold jsRound
      rw [← hk, add_comm, Int.floor_add_int]
      norm_num
    rw [hjk, hk]
    ring

/-- Witness for the amended C3 at paper 1000 × 1000 mm and 7 turns. -/
theorem paper_fit_formulas_witness :
    (FullTurn.calculateSpiralFromPaper 1000 1000 7).finalRadius =
      0.5 * min 1000 1000 * (1 - 2 * 0.05) ∧
    (FullTurn.calculateSpiralFromPaper 1000 1000 7).maxTheta = 7 * (2 * Real.pi) ∧
    (FullTurn.calculateSpiralFromPaper 1000 1000 7).initialRadius =
      (FullTurn.calculateSpiralFromPaper 1000 1000 7).finalRadius /
        Real.exp (GOLDEN_B_FULL * (FullTurn.calculateSpiralFromPaper 1000 1000 7).maxTheta) ∧
    (QuarterTurn.calculateSpiralFromPaper 1000 1000 7).finalRadius =
      0.5 * min 1000 1000 * (1 - 2 * 0.05) ∧
    (QuarterTurn.calculateSpiralFromPaper 1000 1000 7).maxTheta =
      (jsRound (7 * 4) : ℝ) * (Real.pi / 2) ∧
    (QuarterTurn.calculateSpiralFromPaper 1000 1000 7).initialRadius =
      (QuarterTurn.calculateSpiralFromPaper 1000 1000 7).finalRadius /
        Real.exp (GOLDEN_B * (QuarterTurn.calculateSpiralFromPaper 1000 1000 7).maxTheta) ∧
    (∀ k : ℤ, (k : ℝ) = 7 * 4 →
      (QuarterTurn.calculateSpiralFromPaper 1000 1000 7).maxTheta = 7 * (2 * Real.pi)) :=
  paper_fit_formulas 1000 1000 7 (by norm_num) (by norm_num) (by norm_num)

/-- C6: for initialRadius > 0, maxTheta > 0 and pointsPerTurn > 0,
`generateSpiralPoints` returns exactly `ceil(maxTheta/(2π) * pointsPerTurn) + 1`
points, each sampled as `(r * cos(-theta), r * sin(-theta))`; the first point
is `(initialRadius, 0)` and the last point's distance from the origin equals
the radius-at-angle value at maxTheta. -/
theorem generateSpiralPoints_spec (r0 maxTheta ppt : ℝ)
    (h0 : 0 < r0) (hθ : 0 < maxTheta) (hp : 0 < ppt) :
    (FullTurn.generateSpiralPoints r0 maxTheta ppt).length =
      (⌈maxTheta / (2 * Real.pi) * ppt⌉).toNat + 1 ∧
    (FullTurn.generateSpiralPoints r0 maxTheta ppt).head? = some (r0, 0) ∧
    (∃ p, (FullTurn.generateSpiralPoints r0 maxTheta ppt).getLast? = some p ∧
      Real.sqrt (p.1 ^ 2 + p.2 ^ 2) = FullTurn.goldenSpiralRadius maxTheta r0) ∧
    (∀ i : ℕ, i < (FullTurn.generateSpiralPoints r0 maxTheta ppt).length →
      (FullTurn.generateSpiralPoints r0 maxTheta ppt)[i]? =
        some (FullTurn.goldenSpiralRadius
                ((i : ℝ) / (⌈maxTheta / (2 * Real.pi) * ppt⌉ : ℝ) * maxTheta) r0 *
              Real.cos (-((i : ℝ) / (⌈maxTheta / (2 * Real.pi) * ppt⌉ : ℝ) * maxTheta)),
              FullTurn.goldenSpiralRadius
                ((i : ℝ) / (⌈maxTheta / (2 * Real.pi) * ppt⌉ : ℝ) * maxTheta) r0 *
              Real.sin (-((i : ℝ) / (⌈maxTheta / (2 * Real.pi) * ppt⌉ : ℝ) * maxTheta)))) := by
  have hTpos : 0 < ⌈maxTheta / (2 * Real.pi) * ppt⌉ :=
    Int.ceil_pos.mpr (mul_pos (div_pos hθ (by positivity)) hp)
  set T : ℤ := ⌈maxTheta / (2 * Real.pi) * ppt⌉ with hTdef
  have hTn : (T + 1).toNat = T.toNat + 1 := by omega
  have hcast : ((T.toNat : ℕ) : ℝ) = (T : ℝ) := by
    exact_mod_cast congrArg (fun z : ℤ => (z : ℝ)) (Int.toNat_of_nonneg hTpos.le)
  have hTne : (T : ℝ) ≠ 0 := by exact_mod_cast hTpos.ne'
  have hpts : FullTurn.generateSpiralPoints r0 maxTheta ppt =
      (List.range (T + 1).toNat).map (fun (i : ℕ) =>
        (FullTurn.goldenSpiralRadius ((i : ℝ) / (T : ℝ) * maxTheta) r0 *
           Real.cos (-((i : ℝ) / (T : ℝ) * maxTheta)),
         FullTurn.goldenSpiralRadius ((i : ℝ) / (T : ℝ) * maxTheta) r0 *
           Real.sin (-((i : ℝ) / (T : ℝ) * maxTheta)))) := rfl
  refine ⟨?_, ?_, ?_, ?_⟩
  · rw [hpts]
    simp [hTn]
  · rw [hpts, hTn, List.range_succ_eq_map]
    simp [FullTurn.goldenSpiralRadius]
  · rw [hpts, hTn, List.range_succ, List.map_append]
    have hθN : ((T.toNat : ℕ) : ℝ) / (T : ℝ) * maxTheta = maxTheta := by
      rw [hcast, div_self hTne, one_mul]
    refine ⟨_, List.getLast?_concat _, ?_⟩
    have hrpos : 0 < FullTurn.goldenSpiralRadius maxTheta r0 :=
      mul_pos h0 (Real.exp_pos _)
    show Real.sqrt
        ((FullTurn.goldenSpiralRadius (((T.toNat : ℕ) : ℝ) / (T : ℝ) * maxTheta) r0 *
            Real.cos (-(((T.toNat : ℕ) : ℝ) / (T : ℝ) * maxTheta))) ^ 2 +
         (FullTurn.goldenSpiralRadius (((T.toNat : ℕ) : ℝ) / (T : ℝ) * maxTheta) r0 *
            Real.sin (-(((T.toNat : ℕ) : ℝ) / (T : ℝ) * maxTheta))) ^ 2) =
      FullTurn.goldenSpiralRadius maxTheta r0
    rw [hθN]
    rw [show (FullTurn.goldenSpiralRadius maxTheta r0 * Real.cos (-maxTheta)) ^ 2 +
         (FullTurn.goldenSpiralRadius maxTheta r0 * Real.sin (-maxTheta)) ^ 2 =
        FullTurn.goldenSpiralRadius maxTheta r0 ^ 2 *
          (Real.cos (-maxTheta) ^ 2 + Real.sin (-maxTheta) ^ 2) by ring]
    rw [Real.cos_sq_add_sin_sq, mul_one, Real.sqrt_sq hrpos.le]
  · intro i hi
    rw [hpts] at hi ⊢
    rw [List.length_map, List.length_range] at hi
    simp [List.getElem?_map, List.getElem?_range, hi]

/-- Witness for C6 at initialRadius = 1, maxTheta = 1, pointsPerTurn = 720. -/
theorem generateSpiralPoints_spec_witness :
    (FullTurn.generateSpiralPoints 1 1 720).length =
      (⌈(1 : ℝ) / (2 * Real.pi) * 720⌉).toNat + 1 ∧
    (FullTurn.generateSpiralPoints 1 1 720).head? = some (1, 0) ∧
    (∃ p, (FullTurn.generateSpiralPoints 1 1 720).getLast? = some p ∧
      Real.sqrt (p.1 ^ 2 + p.2 ^ 2) = FullTurn.goldenSpiralRadius 1 1) ∧
    (∀ i : ℕ, i < (FullTurn.generateSpiralPoints 1 1 720).length →
      (FullTurn.generateSpiralPoints 1 1 720)[i]? =
        some (FullTurn.goldenSpiralRadius
                ((i : ℝ) / (⌈(1 : ℝ) / (2 * Real.pi) * 720⌉ : ℝ) * 1) 1 *
              Real.cos (-((i : ℝ) / (⌈(1 : ℝ) / (2 * Real.pi) * 720⌉ : ℝ) * 1)),
              FullTurn.goldenSpiralRadius
                ((i : ℝ) / (⌈(1 : ℝ) / (2 * Real.pi) * 720⌉ : ℝ) * 1) 1 *
              Real.sin (-((i : ℝ) / (⌈(1 : ℝ) / (2 * Real.pi) * 720⌉ : ℝ) * 1)))) :=
  generateSpiralPoints_spec 1 1 720 (by norm_num) (by norm_num) (by norm_num)

/-! ### Guide radii — `generateGuideRadii` (template.ts lines 775–791)

The guide-radius generator only uses rational arithmetic (multiplication by
the literal PHI, comparisons, sorting), so it is embedded over `ℚ` with the
same PHI literal, keeping it executable. -/

/-- Rational value of the PHI literal from `constants.ts`, used for the
executable embedding of the purely rational computations. -/
def PHI_Q : ℚ := 1.6180339887498948

lemma PHI_Q_pos : (0 : ℚ) < PHI_Q := by norm_num [PHI_Q]

lemma one_lt_PHI_Q : (1 : ℚ) < PHI_Q := by norm_num [PHI_Q]

/-- The while loop of `generateGuideRadii`: starting at `r`, push `r` and
multiply by PHI while `r ≤ limit` (the source runs the loop for any `r`;
for `r ≤ 0` with `0 ≤ limit` the JavaScript loop would never terminate, so
the embedding stops there — all uses have `r > 0`). -/
def guideAux (limit r : ℚ) : List ℚ :=
  if h : 0 < r ∧ r ≤ limit then
    r :: guideAux limit (r * PHI_Q)
  else
    []
termination_by (⌈limit * 3 / r⌉).toNat
decreasing_by
  obtain ⟨hr, hrl⟩ := h
  have hφ0 : (0 : ℚ) < PHI_Q := PHI_Q_pos
  have hq1 : (1 : ℚ) ≤ limit / r := (one_le_div hr).mpr hrl
  have hy : (3 : ℚ) ≤ limit * 3 / r := by
    have h3 : limit * 3 / r = 3 * (limit / r) := by ring
    rw [h3]; linarith
  have hx : limit * 3 / (r * PHI_Q) = limit * 3 / r / PHI_Q := by
    rw [div_div]
  have h62 : (1 : ℚ) / PHI_Q ≤ 0.62 := by
    rw [div_le_iff₀ hφ0]; norm_num [PHI_Q]
  have hxy : limit * 3 / r / PHI_Q + 1 ≤ limit * 3 / r := by
    have h1 : limit * 3 / r / PHI_Q = limit * 3 / r * (1 / PHI_Q) := by ring
    have h2 : limit * 3 / r * (1 / PHI_Q) ≤ limit * 3 / r * 0.62 :=
      mul_le_mul_of_nonneg_left h62 (by linarith)
    rw [h1]; linarith
  have hceil : ⌈limit * 3 / (r * PHI_Q)⌉ < ⌈limit * 3 / r⌉ := by
    have h3 : (⌈limit * 3 / (r * PHI_Q)⌉ : ℚ) < (⌈limit * 3 / r⌉ : ℚ) := by
      rw [hx]
      calc (⌈limit * 3 / r / PHI_Q⌉ : ℚ) < limit * 3 / r / PHI_Q + 1 :=
            Int.ceil_lt_add_one _
        _ ≤ limit * 3 / r := hxy
        _ ≤ (⌈limit * 3 / r⌉ : ℚ) := Int.le_ceil _
    exact_mod_cast h3
  have hpos : 0 < ⌈limit * 3 / r⌉ := Int.ceil_pos.mpr (by linarith)
  omega

lemma guideAux_of_pos (limit r : ℚ) (h1 : 0 < r) (h2 : r ≤ limit) :
    guideAux limit r = r :: guideAux limit (r * PHI_Q) := by
  rw [guideAux]
  simp [h1, h2]

lemma guideAux_of_neg (limit r : ℚ) (h : ¬(0 < r ∧ r ≤ limit)) :
    guideAux limit r = [] := by
  rw [guideAux]
  simp [h]

lemma guideAux_mem_ub (limit r : ℚ) : ∀ x ∈ guideAux limit r, x ≤ limit := by
  induction r using guideAux.induct limit with
  | case1 r h ih =>
    intro x hx
    rw [guideAux_of_pos _ _ h.1 h.2] at hx
    rcases List.mem_cons.mp hx with rfl | hx2
    · exact h.2
    · exact ih x hx2
  | case2 r h =>
    intro x hx
    rw [guideAux_of_neg _ _ h] at hx
    cases hx

lemma guideAux_mem_lb (limit r : ℚ) : 0 < r → ∀ x ∈ guideAux limit r, r ≤ x := by
  induction r using guideAux.induct limit with
  | case1 r h ih =>
    intro hr x hx
    rw [guideAux_of_pos _ _ h.1 h.2] at hx
    rcases List.mem_cons.mp hx with rfl | hx2
    · exact le_refl x
    · have hstep : r * PHI_Q ≤ x := ih (mul_pos h.1 PHI_Q_pos) x hx2
      have hup : r ≤ r * PHI_Q := le_mul_of_one_le_right hr.le one_lt_PHI_Q.le
      linarith
  | case2 r h =>
    intro hr x hx
    rw [guideAux_of_neg _ _ h] at hx
    cases hx

lemma guideAux_mem_pow (limit r : ℚ) :
    ∀ x ∈ guideAux limit r, ∃ n : ℕ, x = r * PHI_Q ^ n := by
  induction r using guideAux.induct limit with
  | case1 r h ih =>
    intro x hx
    rw [guideAux_of_pos _ _ h.1 h.2] at hx
    rcases List.mem_cons.mp hx with rfl | hx2
    · exact ⟨0, by ring⟩
    · obtain ⟨n, hn⟩ := ih x hx2
      exact ⟨n + 1, by rw [hn]; ring⟩
  | case2 r h =>
    intro x hx
    rw [guideAux_of_neg _ _ h] at hx
    cases hx

lemma guideAux_chain (limit r : ℚ) :
    List.Chain' (fun a b => b = a * PHI_Q) (guideAux limit r) := by
  induction r using guideAux.induct limit with
  | case1 r h ih =>
    rw [guideAux_of_pos _ _ h.1 h.2, List.chain'_cons']
    refine ⟨?_, ih⟩
    intro b hb
    by_cases h2 : 0 < r * PHI_Q ∧ r * PHI_Q ≤ limit
    · rw [guideAux_of_pos _ _ h2.1 h2.2] at hb
      simp only [List.head?_cons, Option.mem_def, Option.some.injEq] at hb
      exact hb.symm
    · rw [guideAux_of_neg _ _ h2] at hb
      cases hb
  | case2 r h =>
    rw [guideAux_of_neg _ _ h]
    exact List.chain'_nil

lemma guideAux_sorted (limit r : ℚ) : 0 < r → (guideAux limit r).Sorted (· < ·) := by
  induction r using guideAux.induct limit with
  | case1 r h ih =>
    intro hr
    rw [guideAux_of_pos _ _ h.1 h.2, List.sorted_cons]
    refine ⟨?_, ih (mul_pos hr PHI_Q_pos)⟩
    intro b hb
    have hb2 : r * PHI_Q ≤ b := guideAux_mem_lb _ _ (mul_pos hr PHI_Q_pos) b hb
    have : r < r * PHI_Q := lt_mul_of_one_lt_right hr one_lt_PHI_Q
    linarith
  | case2 r h =>
    intro hr
    rw [guideAux_of_neg _ _ h]
    exact List.sorted_nil

lemma guideAux_self_mem (limit r : ℚ) (h1 : 0 < r) (h2 : r ≤ limit) :
    r ∈ guideAux limit r := by
  rw [guideAux_of_pos _ _ h1 h2]
  exact List.mem_cons_self _ _

/-- Function `generateGuideRadii` (template.ts lines 775–791): collect the
PHI-geometric run while `r ≤ finalRadius * 1.1`, append `finalRadius` when no
collected radius is within 1 mm of it, and sort ascending (the JavaScript
`sort((a, b) => a - b)` is modelled by insertion sort, which produces the
same ascending permutation). -/
def generateGuideRadii (initialRadius finalRadius : ℚ) : List ℚ :=
  let radii := guideAux (finalRadius * 1.1) initialRadius
  let radii2 :=
    if radii.any fun rad => decide (|rad - finalRadius| < 1) then radii
    else radii ++ [finalRadius]
  List.insertionSort (· ≤ ·) radii2

lemma head?_of_sorted_min {l : List ℚ} {m : ℚ} (hs : l.Sorted (· ≤ ·))
    (hm : m ∈ l) (hlb : ∀ x ∈ l, m ≤ x) : l.head? = some m := by
  cases l with
  | nil => cases hm
  | cons a t =>
    have ham : m ≤ a := hlb a (List.mem_cons_self a t)
    rcases List.mem_cons.mp hm with rfl | hmt
    · rfl
    · have h1 : a ≤ m := (List.sorted_cons.mp hs).1 m hmt
      have h2 : a = m := le_antisymm h1 ham
      simp [h2]

lemma getLast?_of_sorted {l : List ℚ} (hs : l.Sorted (· ≤ ·)) (hne : l ≠ []) :
    ∃ m, l.getLast? = some m ∧ m ∈ l ∧ ∀ x ∈ l, x ≤ m := by
  induction l with
  | nil => exact absurd rfl hne
  | cons a t ih =>
    cases t with
    | nil =>
      refine ⟨a, rfl, List.mem_cons_self a [], ?_⟩
      intro x hx
      rcases List.mem_cons.mp hx with rfl | hx2
      · exact le_refl x
      · cases hx2
    | cons b t2 =>
      have hs2 : (b :: t2).Sorted (· ≤ ·) := (List.sorted_cons.mp hs).2
      obtain ⟨m, h1, h2, h3⟩ := ih hs2 (by simp)
      refine ⟨m, ?_, List.mem_cons_of_mem a h2, ?_⟩
      · rw [List.getLast?_cons_cons]
        exact h1
      · intro x hx
        rcases List.mem_cons.mp hx with rfl | hx2
        · exact (List.sorted_cons.mp hs).1 m h2
        · exact h3 x hx2

/-- C5 counterexample: for r0 = 47, rf = 70 the geometric run is
`[47, 47 * PHI]` (both inside the `rf * 1.1 = 77` limit), neither is within
1 mm of 70, so 70 is appended and the sorted result is
`[47, 70, 47 * PHI]`.  Its last element `47 * PHI ≈ 76.05` is not within
1e-2 relative of rf = 70 (and the consecutive ratios 70/47 and
(47 * PHI)/70 are not PHI). -/
theorem generateGuideRadii_counterexample :
    (generateGuideRadii 47 70).getLast? = some (47 * PHI_Q) ∧
    ¬(|47 * PHI_Q - 70| ≤ 1 / 100 * 70) := by
  have e1 : guideAux (70 * 1.1) 47 = 47 :: guideAux (70 * 1.1) (47 * PHI_Q) :=
    guideAux_of_pos _ _ (by norm_num) (by norm_num)
  have e2 : guideAux (70 * 1.1) (47 * PHI_Q) =
      (47 * PHI_Q) :: guideAux (70 * 1.1) (47 * PHI_Q * PHI_Q) :=
    guideAux_of_pos _ _ (by norm_num [PHI_Q]) (by norm_num [PHI_Q])
  have e3 : guideAux (70 * 1.1) (47 * PHI_Q * PHI_Q) = [] := by
    refine guideAux_of_neg _ _ ?_
    intro hcontra
    have := hcontra.2
    norm_num [PHI_Q] at this
  have hrun : guideAux (70 * 1.1) 47 = [47, 47 * PHI_Q] := by
    rw [e1, e2, e3]
  have habs1 : ¬(|(47 : ℚ) - 70| < 1) := by
    rw [abs_of_nonpos (by norm_num)]
    norm_num
  have habs2 : ¬(|47 * PHI_Q - (70 : ℚ)| < 1) := by
    rw [abs_of_pos (by norm_num [PHI_Q])]
    norm_num [PHI_Q]
  have hL0 : generateGuideRadii 47 70 =
      List.insertionSort (· ≤ ·)
        (if ((guideAux (70 * 1.1) 47).any fun rad => decide (|rad - (70 : ℚ)| < 1)) = true
         then guideAux (70 * 1.1) 47 else guideAux (70 * 1.1) 47 ++ [70]) := rfl
  have hc : ([47, 47 * PHI_Q].any fun rad => decide (|rad - (70 : ℚ)| < 1)) = false := by
    simp [habs1, habs2]
  have hL : generateGuideRadii 47 70 =
      List.insertionSort (· ≤ ·) ([47, 47 * PHI_Q] ++ [70]) := by
    rw [hL0, hrun, hc]
    simp
  have hsort : List.insertionSort (· ≤ ·) ([47, 47 * PHI_Q] ++ [70]) =
      [47, 70, 47 * PHI_Q] := by
    have hx70 : ¬(47 * PHI_Q ≤ (70 : ℚ)) := by norm_num [PHI_Q]
    have h4770 : (47 : ℚ) ≤ 70 := by norm_num
    simp [List.insertionSort, List.orderedInsert, hx70, h4770]
  rw [hL, hsort]
  refine ⟨rfl, ?_⟩
  rw [abs_of_pos (by norm_num [PHI_Q])]
  norm_num [PHI_Q]

/-- C5 (amended): for 0 < r0 ≤ rf, `generateGuideRadii r0 rf` is strictly
ascending with first element exactly r0; its last element lies in
(rf − 1, rf * 1.1] (not always within 1e-2 relative of rf); every element
is either a PHI-power multiple of r0 or the appended rf, and the generated
geometric run has consecutive ratio exactly PHI (the appended rf may break
the PHI ratio with its neighbours). -/
theorem generateGuideRadii_spec (r0 rf : ℚ) (h0 : 0 < r0) (hle : r0 ≤ rf) :
    (generateGuideRadii r0 rf).Sorted (· < ·) ∧
    (generateGuideRadii r0 rf).head? = some r0 ∧
    (∃ m, (generateGuideRadii r0 rf).getLast? = some m ∧
      rf - 1 < m ∧ m ≤ rf * 1.1) ∧
    (∀ x ∈ generateGuideRadii r0 rf, (∃ n : ℕ, x = r0 * PHI_Q ^ n) ∨ x = rf) ∧
    List.Chain' (fun a b => b = a * PHI_Q) (guideAux (rf * 1.1) r0) := by
  have hrf : (0 : ℚ) < rf := lt_of_lt_of_le h0 hle
  have hrf11 : rf ≤ rf * 1.1 := by nlinarith
  have hlim : r0 ≤ rf * 1.1 := le_trans hle hrf11
  set radii := guideAux (rf * 1.1) r0 with hradiidef
  have hsortedR : radii.Sorted (· < ·) := guideAux_sorted _ _ h0
  have hnodupR : radii.Nodup := hsortedR.nodup
  have hmemR : r0 ∈ radii := guideAux_self_mem _ _ h0 hlim
  have hlbR : ∀ x ∈ radii, r0 ≤ x := guideAux_mem_lb _ _ h0
  have hubR : ∀ x ∈ radii, x ≤ rf * 1.1 := guideAux_mem_ub _ _
  have hL0 : generateGuideRadii r0 rf =
      List.insertionSort (· ≤ ·)
        (if (radii.any fun rad => decide (|rad - rf| < 1)) = true then radii
         else radii ++ [rf]) := rfl
  by_cases hb : radii.any (fun rad => decide (|rad - rf| < 1)) = true
  · have hL : generateGuideRadii r0 rf = List.insertionSort (· ≤ ·) radii := by
      rw [hL0, if_pos hb]
    have hperm : (List.insertionSort (· ≤ ·) radii).Perm radii :=
      List.perm_insertionSort _ _
    have hsle : (List.insertionSort (· ≤ ·) radii).Sorted (· ≤ ·) :=
      List.sorted_insertionSort _ _
    have hnd : (List.insertionSort (· ≤ ·) radii).Nodup :=
      hperm.nodup_iff.mpr hnodupR
    obtain ⟨p, hp, hpdec⟩ := List.any_eq_true.mp hb
    have hp1 : |p - rf| < 1 := of_decide_eq_true hpdec
    have hpgt : rf - 1 < p := by
      have := abs_lt.mp hp1
      linarith [this.1]
    refine ⟨?_, ?_, ?_, ?_, guideAux_chain _ _⟩
    · rw [hL]
      exact hsle.lt_of_le hnd
    · rw [hL]
      exact head?_of_sorted_min hsle (hperm.mem_iff.mpr hmemR)
        (fun x hx => hlbR x (hperm.mem_iff.mp hx))
    · obtain ⟨m, hm1, hm2, hm3⟩ :=
        getLast?_of_sorted hsle (List.ne_nil_of_mem (hperm.mem_iff.mpr hmemR))
      refine ⟨m, by rw [hL]; exact hm1, ?_, hubR m (hperm.mem_iff.mp hm2)⟩
      have hpm : p ≤ m := hm3 p (hperm.mem_iff.mpr hp)
      linarith
    · intro x hx
      rw [hL] at hx
      exact Or.inl (guideAux_mem_pow _ _ x (hperm.mem_iff.mp hx))
  · have hrfnot : rf ∉ radii := by
      intro hmem
      exact hb (List.any_eq_true.mpr ⟨rf, hmem, decide_eq_true (by simp)⟩)
    have hnodup2 : (radii ++ [rf]).Nodup := by
      rw [List.nodup_append]
      refine ⟨hnodupR, List.nodup_singleton _, ?_⟩
      intro x hx hx2
      simp only [List.mem_singleton] at hx2
      rw [hx2] at hx
      exact hrfnot hx
    have hmem2 : r0 ∈ radii ++ [rf] := List.mem_append_left _ hmemR
    have hlb2 : ∀ x ∈ radii ++ [rf], r0 ≤ x := by
      intro x hx
      rcases List.mem_append.mp hx with hx1 | hx1
      · exact hlbR x hx1
      · simp only [List.mem_singleton] at hx1
        rw [hx1]
        exact hle
    have hub2 : ∀ x ∈ radii ++ [rf], x ≤ rf * 1.1 := by
      intro x hx
      rcases List.mem_append.mp hx with hx1 | hx1
      · exact hubR x hx1
      · simp only [List.mem_singleton] at hx1
        rw [hx1]
        exact hrf11
    have hL : generateGuideRadii r0 rf =
        List.insertionSort (· ≤ ·) (radii ++ [rf]) := by
      rw [hL0, if_neg hb]
    have hperm : (List.insertionSort (· ≤ ·) (radii ++ [rf])).Perm (radii ++ [rf]) :=
      List.perm_insertionSort _ _
    have hsle : (List.insertionSort (· ≤ ·) (radii ++ [rf])).Sorted (· ≤ ·) :=
      List.sorted_insertionSort _ _
    have hnd : (List.insertionSort (· ≤ ·) (radii ++ [rf])).Nodup :=
      hperm.nodup_iff.mpr hnodup2
    refine ⟨?_, ?_, ?_, ?_, guideAux_chain _ _⟩
    · rw [hL]
      exact hsle.lt_of_le hnd
    · rw [hL]
      exact head?_of_sorted_min hsle (hperm.mem_iff.mpr hmem2)
        (fun x hx => hlb2 x (hperm.mem_iff.mp hx))
    · obtain ⟨m, hm1, hm2, hm3⟩ :=
        getLast?_of_sorted hsle (List.ne_nil_of_mem (hperm.mem_iff.mpr hmem2))
      refine ⟨m, by rw [hL]; exact hm1, ?_, hub2 m (hperm.mem_iff.mp hm2)⟩
      have hrfm : rf ≤ m :=
        hm3 rf (hperm.mem_iff.mpr (List.mem_append_right _ (List.mem_singleton_self _)))
      linarith
    · intro x hx
      rw [hL] at hx
      rcases List.mem_append.mp (hperm.mem_iff.mp hx) with hx1 | hx1
      · exact Or.inl (guideAux_mem_pow _ _ x hx1)
      · simp only [List.mem_singleton] at hx1
        exact Or.inr hx1

/-- Witness for the amended C5 at r0 = 10, rf = 10. -/
theorem generateGuideRadii_spec_witness :
    (generateGuideRadii 10 10).Sorted (· < ·) ∧
    (generateGuideRadii 10 10).head? = some 10 ∧
    (∃ m, (generateGuideRadii 10 10).getLast? = some m ∧
      10 - 1 < m ∧ m ≤ 10 * 1.1) ∧
    (∀ x ∈ generateGuideRadii 10 10, (∃ n : ℕ, x = 10 * PHI_Q ^ n) ∨ x = 10) ∧
    List.Chain' (fun a b => b = a * PHI_Q) (guideAux (10 * 1.1) 10) :=
  generateGuideRadii_spec 10 10 (by norm_num) (by norm_num)

/-! ### Fibonacci squares — `generateFibonacci` and the square-placement
simulation of `calculateBoundingBox` (renderer.ts lines 281–290 and 383–444).
These use only rational arithmetic, so they are embedded over `ℚ`. -/

/-- Loop body of `generateFibonacci`: run `k` iterations, each appending the
sum of the last two entries (the source writes `fib.push(fib[i-1] + fib[i-2])`
with `i` equal to the current length). -/
def fibGo : List ℕ → ℕ → List ℕ
  | fib, 0 => fib
  | fib, k + 1 =>
      fibGo (fib ++ [fib.getD (fib.length - 1) 0 + fib.getD (fib.length - 2) 0]) k

/-- Function `generateFibonacci` (renderer.ts lines 281–290): `n ≤ 0` gives
`[]`, `n = 1` gives `[1]`, otherwise start from `[1, 1]` and loop `i = 2`
to `n - 1`. -/
def generateFibonacci (n : ℕ) : List ℕ :=
  if n = 0 then [] else if n = 1 then [1] else fibGo [1, 1] (n - 2)

/-- A placed Fibonacci square: top-left corner `(x, y)` and side length,
as in the `squares` array of `calculateBoundingBox`. -/
structure FibSquare where
  x : ℚ
  y : ℚ
  size : ℚ

/-- Minimum x over a list of squares.  The source initialises the fold with
`Infinity`; the list is never empty at a call site, so folding from the
first element is equal. -/
def bbMinX : List FibSquare → ℚ
  | [] => 0
  | s :: rest => rest.foldl (fun a q => min a q.x) s.x

/-- Minimum y over a list of squares (source folds from `Infinity`). -/
def bbMinY : List FibSquare → ℚ
  | [] => 0
  | s :: rest => rest.foldl (fun a q => min a q.y) s.y

/-- Maximum of `x + size` over a list of squares (source folds from
`-Infinity`). -/
def bbMaxX : List FibSquare → ℚ
  | [] => 0
  | s :: rest => rest.foldl (fun a q => max a (q.x + q.size)) (s.x + s.size)

/-- Maximum of `y + size` over a list of squares (source folds from
`-Infinity`). -/
def bbMaxY : List FibSquare → ℚ
  | [] => 0
  | s :: rest => rest.foldl (fun a q => max a (q.y + q.size)) (s.y + s.size)

/-- The `switch (dir)` placement of square `i` against the bounding box of
the previous squares (renderer.ts lines 416–425): `i % 4 = 1` right,
`2` down, `3` left, `0` up. -/
def placeSquare (prev : List FibSquare) (size : ℚ) (i : ℕ) : FibSquare :=
  if i % 4 = 1 then ⟨bbMaxX prev, bbMinY prev, size⟩
  else if i % 4 = 2 then ⟨bbMaxX prev - size, bbMaxY prev, size⟩
  else if i % 4 = 3 then ⟨bbMinX prev - size, bbMaxY prev - size, size⟩
  else ⟨bbMinX prev, bbMinY prev - size, size⟩

/-- The placement loop of `calculateBoundingBox` (renderer.ts lines 403–434):
starting from the first square, place each subsequent square against the
bounding box of all squares so far. -/
def placeLoop : List FibSquare → ℕ → List ℚ → List FibSquare
  | squares, _, [] => squares
  | squares, i, size :: rest =>
      placeLoop (squares ++ [placeSquare squares size i]) (i + 1) rest

/-- The square-placement simulation of `calculateBoundingBox`: the first
square of size `s0` is centred at the origin (top-left `(-s0/2, -s0/2)`),
and squares `1, 2, …` are placed by `placeLoop`. -/
def fibonacciSquares : List ℚ → List FibSquare
  | [] => []
  | s0 :: rest => placeLoop [⟨-(s0 / 2), -(s0 / 2), s0⟩] 1 rest

/-- Formalisation of the spec's placement directions: square `i` is flush
against the side of the bounding box of the previous squares given by the
right → down → left → up cycle. -/
def flushAgainst (prev : List FibSquare) (s : FibSquare) (i : ℕ) : Prop :=
  if i % 4 = 1 then s.x = bbMaxX prev ∧ s.y = bbMinY prev
  else if i % 4 = 2 then s.x + s.size = bbMaxX prev ∧ s.y = bbMaxY prev
  else if i % 4 = 3 then s.x + s.size = bbMinX prev ∧ s.y + s.size = bbMaxY prev
  else s.x = bbMinX prev ∧ s.y + s.size = bbMinY prev

/-- C7: six Fibonacci squares have sizes [1,1,2,3,5,8]; the second square
shares its full left edge with the first square's right edge; and every
square i ≥ 1 is placed flush against the bounding box of squares 0..i-1
with the direction cycling right → down → left → up. -/
theorem fibonacci_squares_spec :
    generateFibonacci 6 = [1, 1, 2, 3, 5, 8] ∧
    (fibonacciSquares ((generateFibonacci 6).map (fun k => (k : ℚ)))).map
      FibSquare.size = [1, 1, 2, 3, 5, 8] ∧
    ((fibonacciSquares ((generateFibonacci 6).map (fun k => (k : ℚ)))).getD 1
        ⟨0, 0, 0⟩).x =
      ((fibonacciSquares ((generateFibonacci 6).map (fun k => (k : ℚ)))).getD 0
        ⟨0, 0, 0⟩).x +
      ((fibonacciSquares ((generateFibonacci 6).map (fun k => (k : ℚ)))).getD 0
        ⟨0, 0, 0⟩).size ∧
    ((fibonacciSquares ((generateFibonacci 6).map (fun k => (k : ℚ)))).getD 1
        ⟨0, 0, 0⟩).y =
      ((fibonacciSquares ((generateFibonacci 6).map (fun k => (k : ℚ)))).getD 0
        ⟨0, 0, 0⟩).y ∧
    ((fibonacciSquares ((generateFibonacci 6).map (fun k => (k : ℚ)))).getD 1
        ⟨0, 0, 0⟩).size =
      ((fibonacciSquares ((generateFibonacci 6).map (fun k => (k : ℚ)))).getD 0
        ⟨0, 0, 0⟩).size ∧
    ∀ i : ℕ, 1 ≤ i → i < 6 →
      flushAgainst
        ((fibonacciSquares ((generateFibonacci 6).map (fun k => (k : ℚ)))).take i)
        ((fibonacciSquares ((generateFibonacci 6).map (fun k => (k : ℚ)))).getD i
          ⟨0, 0, 0⟩) i := by
  have hfib : generateFibonacci 6 = [1, 1, 2, 3, 5, 8] := by decide
  have hmap : (generateFibonacci 6).map (fun k => (k : ℚ)) =
      [1, 1, 2, 3, 5, 8] := by
    rw [hfib]
    norm_num
  have hsq : fibonacciSquares [(1 : ℚ), 1, 2, 3, 5, 8] =
      [⟨-(1 / 2), -(1 / 2), 1⟩, ⟨1 / 2, -(1 / 2), 1⟩, ⟨-(1 / 2), 1 / 2, 2⟩,
       ⟨-(7 / 2), -(1 / 2), 3⟩, ⟨-(7 / 2), -(11 / 2), 5⟩, ⟨3 / 2, -(11 / 2), 8⟩] := by
    simp only [fibonacciSquares, placeLoop, placeSquare, bbMinX, bbMinY, bbMaxX,
      bbMaxY, List.foldl, min_def, max_def]
    norm_num
  rw [hmap, hsq]
  refine ⟨hfib, by norm_num, by norm_num, by norm_num, by norm_num, ?_⟩
  intro i h1 h2
  interval_cases i <;>
    simp only [List.take, List.getD, List.getElem?_cons_zero, List.getElem?_cons_succ,
      flushAgainst, bbMinX, bbMinY, bbMaxX, bbMaxY, List.foldl, min_def, max_def] <;>
    norm_num

/-! ### Configuration boundary and NaN propagation (C9)

`setupFormHandlers` (the event-handler module, lines 63–86) converts a
numeric form field with `parseFloat(target.value) || 0` and passes the
result straight to `state.updateConfig` — there is no rejection or
clamping.  A cleared or non-numeric turns field parses to NaN, which
`|| 0` coerces to 0, so `turns = 0` reaches the math layer.  For
`maxTheta = 0`, `generateSpiralPoints` computes `totalPoints = 0` and the
single loop iteration evaluates `theta = 0 / 0 = NaN` in JavaScript; the
NaN propagates through `exp`, `cos`, `sin` and the products into both
coordinates of the emitted point. -/

/-- Model of `parseFloat(target.value) || 0` (event-handler module,
lines 74–77): `none` models a NaN parse result; `|| 0` maps NaN and 0
to 0 and passes every other number through. -/
noncomputable def jsOrZero : Option ℝ → ℝ
  | none => 0
  | some v => if v = 0 then 0 else v

/-- NaN-aware model of `generateSpiralPoints` (template.ts lines 743–763):
a coordinate is `none` exactly when the JavaScript computation produces a
non-finite value.  The only division is `i / totalPoints`; when
`totalPoints = 0` the loop still runs once with `i = 0`, JavaScript
evaluates `0 / 0 = NaN`, and the NaN propagates to both coordinates.
When `totalPoints ≠ 0` all values are finite and agree with
`FullTurn.generateSpiralPoints`. -/
noncomputable def generateSpiralPointsChecked (initialRadius maxTheta pointsPerTurn : ℝ) :
    List (Option ℝ × Option ℝ) :=
  let totalPoints : ℤ := ⌈maxTheta / (2 * Real.pi) * pointsPerTurn⌉
  (List.range (totalPoints + 1).toNat).map fun (i : ℕ) =>
    if totalPoints = 0 then (none, none)
    else
      let theta := (i : ℝ) / (totalPoints : ℝ) * maxTheta
      let r := FullTurn.goldenSpiralRadius theta initialRadius
      (some (r * Real.cos (-theta)), some (r * Real.sin (-theta)))

/-- On inputs whose sample count is nonzero the NaN-aware model agrees with
the plain embedding of `generateSpiralPoints`. -/
lemma generateSpiralPointsChecked_eq (r0 maxTheta ppt : ℝ)
    (h : ⌈maxTheta / (2 * Real.pi) * ppt⌉ ≠ 0) :
    generateSpiralPointsChecked r0 maxTheta ppt =
      (FullTurn.generateSpiralPoints r0 maxTheta ppt).map
        (fun p => (some p.1, some p.2)) := by
  unfold generateSpiralPointsChecked FullTurn.generateSpiralPoints
  rw [List.map_map]
  refine List.map_congr_left ?_
  intro i _
  simp [h]

/-- C9: the configuration boundary does not reject or clamp a non-positive
turns value: a cleared turns field is coerced to 0 and passed through, the
paper-fit function then returns maxTheta = 0 with initialRadius = 450 (for
the default 1000 × 1000 paper), and `generateSpiralPoints` emits a single
point with NaN in both coordinates — non-finite geometry reaches the
render path, contradicting the claim. -/
theorem invalid_turns_yields_nan_geometry :
    jsOrZero none = 0 ∧
    (FullTurn.calculateSpiralFromPaper 1000 1000 (jsOrZero none)).maxTheta = 0 ∧
    (FullTurn.calculateSpiralFromPaper 1000 1000 (jsOrZero none)).initialRadius = 450 ∧
    generateSpiralPointsChecked 450 0 720 = [(none, none)] := by
  have h0 : jsOrZero none = 0 := rfl
  have hT : ⌈(0 : ℝ) / (2 * Real.pi) * 720⌉ = 0 := by norm_num
  refine ⟨h0, ?_, ?_, ?_⟩
  · show jsOrZero none * 2 * Real.pi = 0
    rw [h0]
    ring
  · show min (1000 : ℝ) 1000 / 2 * (1 - 2 * MARGIN_PERCENT) /
        Real.exp (GOLDEN_B_FULL * (jsOrZero none * 2 * Real.pi)) = 450
    rw [h0]
    norm_num [MARGIN_PERCENT, Real.exp_zero]
  · have hpts : generateSpiralPointsChecked 450 0 720 =
        (List.range ((⌈(0 : ℝ) / (2 * Real.pi) * 720⌉ + 1).toNat)).map (fun (i : ℕ) =>
          if ⌈(0 : ℝ) / (2 * Real.pi) * 720⌉ = 0 then (none, none)
          else
            (some (FullTurn.goldenSpiralRadius
                ((i : ℝ) / ((⌈(0 : ℝ) / (2 * Real.pi) * 720⌉ : ℤ) : ℝ) * 0) 450 *
              Real.cos (-((i : ℝ) / ((⌈(0 : ℝ) / (2 * Real.pi) * 720⌉ : ℤ) : ℝ) * 0))),
             some (FullTurn.goldenSpiralRadius
                ((i : ℝ) / ((⌈(0 : ℝ) / (2 * Real.pi) * 720⌉ : ℤ) : ℝ) * 0) 450 *
              Real.sin (-((i : ℝ) / ((⌈(0 : ℝ) / (2 * Real.pi) * 720⌉ : ℤ) : ℝ) * 0))))) :=
      rfl
    rw [hpts, hT]
    simp

/-! ### State manager (C10) — src/lib/state.ts

All state operations are plain record updates over rational numbers and
booleans; the publish-subscribe notification and localStorage persistence
have no effect on the stored values. -/

/-- Configuration record from `lib/config.ts` (the revision in the
sources), with `DEFAULT_CONFIG` values below. -/
structure SpiralConfig where
  paperSize : String
  paperWidth : ℚ
  paperHeight : ℚ
  margin : ℚ
  lineWidth : ℚ
  turns : ℚ
  dpi : ℚ
  showGrid : Bool
  gridSpacingMM : ℚ
  showGuideCircles : Bool
  showGoldenRectangles : Bool
  showRadialLines : Bool

/-- Defaults `DEFAULT_CONFIG` from `lib/config.ts`. -/
def DEFAULT_CONFIG : SpiralConfig :=
  { paperSize := "custom", paperWidth := 1000, paperHeight := 1000, margin := 10,
    lineWidth := 2, turns := 7, dpi := 300, showGrid := false, gridSpacingMM := 50,
    showGuideCircles := true, showGoldenRectangles := true, showRadialLines := true }

/-- Render result record from `lib/renderer.ts`. -/
structure DrawResult where
  pathLength : ℚ
  initialRadius : ℚ
  finalRadius : ℚ

/-- The `AppState` record of `lib/state.ts` (lines 16–31). -/
structure AppState where
  config : SpiralConfig
  drawResult : Option DrawResult
  zoom : ℚ
  panX : ℚ
  panY : ℚ
  isDragging : Bool
  isConfigCollapsed : Bool

/-- The constructor state of `StateManager` (state.ts lines 45–54). -/
def initialState : AppState :=
  { config := DEFAULT_CONFIG, drawResult := none, zoom := 1.0, panX := 0, panY := 0,
    isDragging := false, isConfigCollapsed := false }

/-- Mutator `updateConfig` (state.ts lines 77–84): spreads a partial patch
over the existing config; `merged` is the resulting config.  Zoom is
untouched. -/
def updateConfig (s : AppState) (merged : SpiralConfig) : AppState :=
  { s with config := merged }

/-- Mutator `resetConfig` (state.ts lines 89–99). -/
def resetConfig (s : AppState) : AppState :=
  { s with config := DEFAULT_CONFIG, zoom := 1.0, panX := 0, panY := 0 }

/-- Mutator `setDrawResult` (state.ts lines 104–107). -/
def setDrawResult (s : AppState) (result : DrawResult) : AppState :=
  { s with drawResult := some result }

/-- Mutator `setZoom` (state.ts lines 112–117): clamps to [0.1, 5.0] via
`Math.max(0.1, Math.min(5.0, zoom))`. -/
def setZoom (s : AppState) (zoom : ℚ) : AppState :=
  { s with zoom := max 0.1 (min 5.0 zoom) }

/-- Mutator `setPan` (state.ts lines 122–125). -/
def setPan (s : AppState) (x y : ℚ) : AppState :=
  { s with panX := x, panY := y }

/-- Mutator `resetView` (state.ts lines 130–133). -/
def resetView (s : AppState) : AppState :=
  { s with zoom := 1.0, panX := 0, panY := 0 }

/-- Mutator `setDragging` (state.ts lines 138–141). -/
def setDragging (s : AppState) (d : Bool) : AppState :=
  { s with isDragging := d }

/-- Mutator `toggleConfigCollapsed` (state.ts lines 146–153). -/
def toggleConfigCollapsed (s : AppState) : AppState :=
  { s with isConfigCollapsed := !s.isConfigCollapsed }

/-- Constructor helper `loadFromStorage` (state.ts lines 196–216): only
config and the collapsed flag are restored; zoom is untouched. -/
def loadFromStorage (s : AppState) (cfg : SpiralConfig) (collapsed : Bool) : AppState :=
  { s with config := cfg, isConfigCollapsed := collapsed }

/-- The zoom invariant of the state manager. -/
def zoomInvariant (s : AppState) : Prop :=
  0.1 ≤ s.zoom ∧ s.zoom ≤ 5.0

/-- C10: every state operation preserves 0.1 ≤ zoom ≤ 5.0; `setZoom` clamps
its argument into [0.1, 5.0], and every other mutator either leaves zoom
unchanged or sets it to 1.0. -/
theorem stateManager_zoom_invariant (s : AppState) (z : ℚ) (c : SpiralConfig)
    (r : DrawResult) (x y : ℚ) (d collapsed : Bool) (hs : zoomInvariant s) :
    zoomInvariant initialState ∧
    (setZoom s z).zoom = max 0.1 (min 5.0 z) ∧ zoomInvariant (setZoom s z) ∧
    (updateConfig s c).zoom = s.zoom ∧ zoomInvariant (updateConfig s c) ∧
    (resetConfig s).zoom = 1.0 ∧ zoomInvariant (resetConfig s) ∧
    (setDrawResult s r).zoom = s.zoom ∧ zoomInvariant (setDrawResult s r) ∧
    (setPan s x y).zoom = s.zoom ∧ zoomInvariant (setPan s x y) ∧
    (resetView s).zoom = 1.0 ∧ zoomInvariant (resetView s) ∧
    (setDragging s d).zoom = s.zoom ∧ zoomInvariant (setDragging s d) ∧
    (toggleConfigCollapsed s).zoom = s.zoom ∧
    zoomInvariant (toggleConfigCollapsed s) ∧
    (loadFromStorage s c collapsed).zoom = s.zoom ∧
    zoomInvariant (loadFromStorage s c collapsed) := by
  refine ⟨⟨by norm_num [initialState], by norm_num [initialState]⟩, rfl,
    ⟨le_max_left _ _, max_le (by norm_num) (min_le_left _ _)⟩,
    rfl, hs, rfl, ⟨by norm_num [resetConfig], by norm_num [resetConfig]⟩,
    rfl, hs, rfl, hs, rfl,
    ⟨by norm_num [resetView], by norm_num [resetView]⟩,
    rfl, hs, rfl, hs, rfl, hs⟩

/-- Witness for C10 at the initial state with an out-of-range zoom request. -/
theorem stateManager_zoom_invariant_witness :
    zoomInvariant initialState ∧
    (setZoom initialState 10).zoom = max 0.1 (min 5.0 10) ∧
    zoomInvariant (setZoom initialState 10) ∧
    (updateConfig initialState DEFAULT_CONFIG).zoom = initialState.zoom ∧
    zoomInvariant (updateConfig initialState DEFAULT_CONFIG) ∧
    (resetConfig initialState).zoom = 1.0 ∧ zoomInvariant (resetConfig initialState) ∧
    (setDrawResult initialState ⟨0, 0, 0⟩).zoom = initialState.zoom ∧
    zoomInvariant (setDrawResult initialState ⟨0, 0, 0⟩) ∧
    (setPan initialState 3 4).zoom = initialState.zoom ∧
    zoomInvariant (setPan initialState 3 4) ∧
    (resetView initialState).zoom = 1.0 ∧ zoomInvariant (resetView initialState) ∧
    (setDragging initialState true).zoom = initialState.zoom ∧
    zoomInvariant (setDragging initialState true) ∧
    (toggleConfigCollapsed initialState).zoom = initialState.zoom ∧
    zoomInvariant (toggleConfigCollapsed initialState) ∧
    (loadFromStorage initialState DEFAULT_CONFIG true).zoom = initialState.zoom ∧
    zoomInvariant (loadFromStorage initialState DEFAULT_CONFIG true) :=
  stateManager_zoom_invariant initialState 10 DEFAULT_CONFIG ⟨0, 0, 0⟩ 3 4 true true
    ⟨by norm_num [initialState], by norm_num [initialState]⟩

end Spiral
